import Mathlib

/-!
Verification of the core specification of a container-image editor
(content-addressable storage engine and image mutator) against its
repository. The repository ships the test-suites of both components and
the CLI glue; the production engine and mutator bodies are not part of
the given sources, so the operations are modelled from the specification
text and checked against the behaviour the tests pin down, including the
published conformance digests.
-/

set_option maxRecDepth 10000

namespace Umoci

/-- Bytes of a blob are modelled as a list of characters; every byte that
actually occurs in the development is an ASCII/latin-1 code point, so
`Char.toNat` is its byte value. -/
abbrev Bytes := List Char

/-- Convert a string to its byte sequence (all content in scope is ASCII). -/
def strBytes (s : String) : Bytes := s.data

/-! ## SHA-256

Executable SHA-256 over byte lists, translated from FIPS 180-4. The CAS
specification fixes `sha256` as the store algorithm, and the published
conformance digests of section 8 are SHA-256 values. -/

/-- Mask to 32 bits. -/
def m32 (x : Nat) : Nat := x &&& 0xFFFFFFFF

/-- Right rotation of a 32-bit word. -/
def rotr (n x : Nat) : Nat := m32 ((x >>> n) ||| (x <<< (32 - n)))

/-- Round constants of SHA-256. -/
def shaK : List Nat :=
  [1116352408, 1899447441, 3049323471, 3921009573, 961987163, 1508970993,
   2453635748, 2870763221, 3624381080, 310598401, 607225278, 1426881987,
   1925078388, 2162078206, 2614888103, 3248222580, 3835390401, 4022224774,
   264347078, 604807628, 770255983, 1249150122, 1555081692, 1996064986,
   2554220882, 2821834349, 2952996808, 3210313671, 3336571891, 3584528711,
   113926993, 338241895, 666307205, 773529912, 1294757372, 1396182291,
   1695183700, 1986661051, 2177026350, 2456956037, 2730485921, 2820302411,
   3259730800, 3345764771, 3516065817, 3600352804, 4094571909, 275423344,
   430227734, 506948616, 659060556, 883997877, 958139571, 1322822218,
   1537002063, 1747873779, 1955562222, 2024104815, 2227730452, 2361852424,
   2428436474, 2756734187, 3204031479, 3329325298]

/-- Initial hash values of SHA-256. -/
def shaH0 : List Nat :=
  [1779033703, 3144134277, 1013904242, 2773480762, 1359893119, 2600822924,
   528734635, 1541459225]

/-- Small sigma 0. -/
def ssig0 (x : Nat) : Nat := (rotr 7 x) ^^^ (rotr 18 x) ^^^ (x >>> 3)

/-- Small sigma 1. -/
def ssig1 (x : Nat) : Nat := (rotr 17 x) ^^^ (rotr 19 x) ^^^ (x >>> 10)

/-- Big sigma 0. -/
def bsig0 (x : Nat) : Nat := (rotr 2 x) ^^^ (rotr 13 x) ^^^ (rotr 22 x)

/-- Big sigma 1. -/
def bsig1 (x : Nat) : Nat := (rotr 6 x) ^^^ (rotr 11 x) ^^^ (rotr 25 x)

/-- Round constants packed into one number, the first constant in the
most significant 32-bit slot. -/
def shaKN : Nat := shaK.foldl (fun a k => (a <<< 32) ||| k) 0

/-- Initial hash state packed into one number, register `a` in the most
significant 32-bit slot. -/
def shaH0N : Nat := shaH0.foldl (fun a h => (a <<< 32) ||| h) 0

/-- Word `j` of a packed group, counting from the least significant slot. -/
def wGet (wp j : Nat) : Nat := (wp >>> (32 * j)) &&& 0xFFFFFFFF

/-- Reverse the word order of a 512-bit block so that message word 0 ends
up in the least significant slot of the packed schedule. -/
def initW : Nat → Nat → Nat → Nat
  | 0, _, wp => wp
  | j + 1, blk, wp =>
      initW j blk ((wp <<< 32) ||| wGet blk (16 - (j + 1)))

/-- Extend the packed message words to the full 64-word schedule; the
first argument counts the remaining extension steps (48 in total, words
16 to 63). The `if` with identical branches forces the accumulator. -/
def schedN : Nat → Nat → Nat
  | 0, wp => wp
  | r + 1, wp =>
      let i := 64 - (r + 1)
      let t := m32 (ssig1 (wGet wp (i - 2)) + wGet wp (i - 7) +
                    ssig0 (wGet wp (i - 15)) + wGet wp (i - 16))
      let wp2 := wp ||| (t <<< (32 * i))
      if wp2 == 0 then schedN r wp2 else schedN r wp2

/-- One round of the compression function on the packed state. -/
def shaRound (st kw : Nat) : Nat :=
  let a := wGet st 7
  let b := wGet st 6
  let c := wGet st 5
  let d := wGet st 4
  let e := wGet st 3
  let f := wGet st 2
  let g := wGet st 1
  let h := wGet st 0
  let t1 := m32 (h + bsig1 e + ((e &&& f) ^^^ ((0xFFFFFFFF ^^^ e) &&& g)) + kw)
  let t2 := m32 (bsig0 a + ((a &&& b) ^^^ (a &&& c) ^^^ (b &&& c)))
  (m32 (t1 + t2) <<< 224) ||| (a <<< 192) ||| (b <<< 160) ||| (c <<< 128) |||
  (m32 (d + t1) <<< 96) ||| (e <<< 64) ||| (f <<< 32) ||| g

/-- Run the 64 rounds; the first argument counts the remaining rounds,
round `64 - r` uses constant `63 - (64 - r)` slots accordingly. -/
def shaRounds : Nat → Nat → Nat → Nat
  | 0, st, _ => st
  | r + 1, st, wp =>
      let i := 64 - (r + 1)
      let st2 := shaRound st (m32 (wGet shaKN (63 - i) + wGet wp i))
      if st2 == 0 then shaRounds r st2 wp else shaRounds r st2 wp

/-- Add two packed states lane-wise modulo `2 ^ 32`. -/
def addStates (x y : Nat) : Nat :=
  (m32 (wGet x 7 + wGet y 7) <<< 224) ||| (m32 (wGet x 6 + wGet y 6) <<< 192) |||
  (m32 (wGet x 5 + wGet y 5) <<< 160) ||| (m32 (wGet x 4 + wGet y 4) <<< 128) |||
  (m32 (wGet x 3 + wGet y 3) <<< 96) ||| (m32 (wGet x 2 + wGet y 2) <<< 64) |||
  (m32 (wGet x 1 + wGet y 1) <<< 32) ||| m32 (wGet x 0 + wGet y 0)

/-- Compress one 512-bit block (as a number) into the packed state. -/
def shaBlock (st blk : Nat) : Nat :=
  addStates st (shaRounds 64 st (schedN 48 (initW 16 blk 0)))

/-- Length with a strict accumulator: the `if` with identical branches
forces the running count to a literal at every step, which keeps kernel
reduction of long lists shallow. -/
def lenF : Nat → List α → Nat
  | acc, [] => acc
  | acc, _ :: t => if acc == 0 then lenF (acc + 1) t else lenF (acc + 1) t

/-- Big-endian packing of a byte list into a single natural number, with
a strict accumulator (see `lenF`): the whole message is represented as
one number so that kernel reduction never recurses deeply. -/
def bytesNatF : Nat → List Char → Nat
  | acc, [] => acc
  | acc, c :: t =>
      if acc == 0 then bytesNatF ((acc <<< 8) ||| c.toNat) t
      else bytesNatF ((acc <<< 8) ||| c.toNat) t

/-- Big-endian encoding of a number on `n` bytes. -/
def beBytes : Nat → Nat → List Nat
  | 0, _ => []
  | n + 1, x => beBytes n (x >>> 8) ++ [x &&& 0xFF]

/-- SHA-256 padding: given the byte length and the packed message, return
the number of 64-byte blocks and the padded message as one number. -/
def shaPadN (len msg : Nat) : Nat × Nat :=
  let z := (119 - len % 64) % 64
  ((len + 9 + z) / 64, (((msg <<< 8) ||| 0x80) <<< (8 * (z + 8))) ||| (len * 8))

/-- Compress the blocks of the padded message, most significant first;
the first argument counts the remaining blocks. The `if` with equal
branches forces the intermediate hash state to a numeric literal after
every block, bounding the depth of kernel reduction. -/
def shaFoldN : Nat → Nat → Nat → Nat
  | 0, _, st => st
  | k + 1, padded, st =>
      let st2 := shaBlock st ((padded >>> (512 * k)) &&& ((1 <<< 512) - 1))
      if st2 == 0 then shaFoldN k padded st2 else shaFoldN k padded st2

/-- SHA-256 digest (32 bytes) of a byte list. -/
def sha256 (msg : Bytes) : List Nat :=
  let pd := shaPadN (lenF 0 msg) (bytesNatF 0 msg)
  beBytes 32 (shaFoldN pd.1 pd.2 shaH0N)

/-- Lowercase hex digit of a value below 16. -/
def hexDigit (n : Nat) : Char :=
  if n < 10 then Char.ofNat (48 + n) else Char.ofNat (87 + n)

/-- Lowercase hex string of a byte list. -/
def hexStr (bs : List Nat) : String :=
  String.mk (bs.flatMap (fun b => [hexDigit (b >>> 4), hexDigit (b &&& 0xF)]))

/-- Canonical textual digest of a blob under the store algorithm
(`sha256`), in the form `algo:hex` required by the data model. -/
def sha256Hex (b : Bytes) : String :=
  "sha256:" ++ hexStr (sha256 b)

/-! ## JSON text building blocks

The specification requires canonical JSON: the stable field order of the
standard encoder, no pretty printing, and (from the observed encoder) a
trailing newline on every `PutBlobJSON` blob. Braces are written with
escape codes throughout. -/

/-- Opening brace as a string. -/
def obr : String := "\x7b"

/-- Closing brace as a string. -/
def cbr : String := "\x7d"

/-- Opening brace as a character. -/
def obraceC : Char := Char.ofNat 123

/-- Closing brace as a character. -/
def cbraceC : Char := Char.ofNat 125

/-- Escape one character the way the standard JSON encoder does: quote,
backslash, the HTML-sensitive characters, control characters and the
line/paragraph separators are escaped, everything else is kept. -/
def escChar (c : Char) : List Char :=
  if c = '"' then ['\\', '"']
  else if c = '\\' then ['\\', '\\']
  else if c = '\n' then ['\\', 'n']
  else if c = '\r' then ['\\', 'r']
  else if c = '\t' then ['\\', 't']
  else if c = '<' then ['\\', 'u', '0', '0', '3', 'c']
  else if c = '>' then ['\\', 'u', '0', '0', '3', 'e']
  else if c = '&' then ['\\', 'u', '0', '0', '2', '6']
  else if c.toNat < 32 then
    ['\\', 'u', '0', '0', hexDigit (c.toNat / 16), hexDigit (c.toNat % 16)]
  else if c.toNat = 0x2028 then ['\\', 'u', '2', '0', '2', '8']
  else if c.toNat = 0x2029 then ['\\', 'u', '2', '0', '2', '9']
  else [c]

/-- Escape a character list as the body of a JSON string literal. -/
def escString (cs : List Char) : List Char := cs.flatMap escChar

/-- Quote a string as a JSON string literal. -/
def jq (s : String) : String := "\"" ++ String.mk (escString s.data) ++ "\""

/-- Decimal digits of a number; the first argument is fuel (the number
itself plus one always suffices). -/
def natCharsAux : Nat → Nat → List Char
  | 0, _ => []
  | f + 1, n =>
      if n < 10 then [Char.ofNat (48 + n)]
      else natCharsAux f (n / 10) ++ [Char.ofNat (48 + n % 10)]

/-- Decimal representation of a natural number. -/
def natChars (n : Nat) : List Char := natCharsAux (n + 1) n

/-- Decimal string of a natural number. -/
def natStr (n : Nat) : String := String.mk (natChars n)

/-- Decimal representation of an integer. -/
def intChars (i : Int) : List Char :=
  if i < 0 then '-' :: natChars i.natAbs else natChars i.natAbs

/-- Join strings with commas. -/
def joinStr : List String → String
  | [] => ""
  | [x] => x
  | x :: xs => x ++ "," ++ joinStr xs

/-! ## Data model

Descriptors, manifests and image configs as consumed and produced by the
CAS engine and the mutator (section 3 of the specification). The JSON
encoders below are modelled from the specification (canonical JSON with
the declared field order of the OCI structures and `omitempty` on the
optional fields); the published conformance digests of section 8 pin the
encodings byte for byte. -/

/-- Timestamp of the zero time value, as the standard encoder prints it. -/
def zeroTime : String := "0001-01-01T00:00:00Z"

/-- OCI descriptor: media type, digest and size of a blob. -/
structure Descriptor where
  mediaType : String
  digest : String
  size : Nat
  deriving DecidableEq

/-- Runtime configuration embedded in an image config; only the fields
exercised by the repository are modelled, all of them optional. -/
structure ImageConfig where
  user : String
  deriving DecidableEq

/-- Root filesystem section of an image config. -/
structure RootFS where
  fsType : String
  diffIDs : List String
  deriving DecidableEq

/-- History entry of an image config. -/
structure History where
  created : String
  createdBy : String
  author : String
  comment : String
  emptyLayer : Bool
  deriving DecidableEq

/-- OCI image config. -/
structure Image where
  created : String
  author : String
  architecture : String
  os : String
  config : ImageConfig
  rootfs : RootFS
  history : List History
  deriving DecidableEq

/-- OCI image manifest. `annots` models the optional annotations map. -/
structure Manifest where
  schemaVersion : Nat
  config : Descriptor
  layers : List Descriptor
  annots : List (String × String)
  deriving DecidableEq

/-- Media type of an image manifest. -/
def mtManifest : String := "application/vnd.oci.image.manifest.v1+json"

/-- Media type of an image config. -/
def mtConfig : String := "application/vnd.oci.image.config.v1+json"

/-- Media type of a gzip-compressed distributable layer. -/
def mtLayerGzip : String := "application/vnd.oci.image.layer.v1.tar+gzip"

/-- Media type of a gzip-compressed non-distributable layer. -/
def mtLayerNonDist : String :=
  "application/vnd.oci.image.layer.nondistributable.v1.tar+gzip"

/-- Canonical JSON of a descriptor. -/
def encDescriptor (d : Descriptor) : String :=
  obr ++ "\"mediaType\":" ++ jq d.mediaType ++ ",\"digest\":" ++ jq d.digest ++
  ",\"size\":" ++ natStr d.size ++ cbr

/-- Canonical JSON of the runtime configuration (all fields optional). -/
def encImageConfig (c : ImageConfig) : String :=
  obr ++ (if c.user = "" then "" else "\"User\":" ++ jq c.user) ++ cbr

/-- Canonical JSON of the root filesystem section. -/
def encRootFS (r : RootFS) : String :=
  obr ++ "\"type\":" ++ jq r.fsType ++ ",\"diff_ids\":[" ++
  joinStr (r.diffIDs.map jq) ++ "]" ++ cbr

/-- Canonical JSON of a history entry: `created` is a time value and is
always emitted, the other fields are optional. -/
def encHistory (h : History) : String :=
  obr ++ "\"created\":" ++ jq h.created ++
  (if h.createdBy = "" then "" else ",\"created_by\":" ++ jq h.createdBy) ++
  (if h.author = "" then "" else ",\"author\":" ++ jq h.author) ++
  (if h.comment = "" then "" else ",\"comment\":" ++ jq h.comment) ++
  (if h.emptyLayer then ",\"empty_layer\":true" else "") ++ cbr

/-- Canonical JSON of an image config: `created` is a time value and is
always emitted, `author` and `history` are optional, `architecture`,
`os`, `config` and `rootfs` are always emitted. -/
def encImage (im : Image) : String :=
  obr ++ "\"created\":" ++ jq im.created ++
  (if im.author = "" then "" else ",\"author\":" ++ jq im.author) ++
  ",\"architecture\":" ++ jq im.architecture ++ ",\"os\":" ++ jq im.os ++
  ",\"config\":" ++ encImageConfig im.config ++
  ",\"rootfs\":" ++ encRootFS im.rootfs ++
  (if im.history.isEmpty then ""
   else ",\"history\":[" ++ joinStr (im.history.map encHistory) ++ "]") ++ cbr

/-- Canonical JSON of a manifest; the annotations map is optional. -/
def encManifest (m : Manifest) : String :=
  obr ++ "\"schemaVersion\":" ++ natStr m.schemaVersion ++
  ",\"config\":" ++ encDescriptor m.config ++
  ",\"layers\":[" ++ joinStr (m.layers.map encDescriptor) ++ "]" ++
  (if m.annots.isEmpty then ""
   else ",\"annotations\":" ++ obr ++
        joinStr (m.annots.map (fun p => jq p.1 ++ ":" ++ jq p.2)) ++ cbr) ++ cbr

/-! ## CAS engine

Modelled from the spec: the production engine (package `oci/cas` and its
directory driver) is not among the given sources, only its test-suites
are; the state machine below follows section 4.1 of the specification.
The store is a map from textual digests to byte lists together with the
named references, the scratch (temp) directories present in the layout,
and the read-only and closed flags of the handle. Persistence details
(one file per blob under `blobs/sha256/`, one JSON file per reference
under `refs/`) are abstracted into the maps; atomicity of the rename
step is implicit in the atomic state update. -/

/-- Error kinds of the boundary taxonomy (section 7). -/
inductive ErrKind where
  | notFound
  | alreadyExists
  | invalidLayout
  | invalidArgument
  | digestMismatch
  | readOnly
  | ioErr
  | cancelled
  deriving DecidableEq

/-- Scratch/temporary directory inside the layout: its name and whether
the advisory lock of a live owning session is held on it. -/
structure TempDir where
  name : String
  locked : Bool
  deriving DecidableEq

/-- State of an open engine over a layout directory. -/
structure EngineState where
  blobs : List (String × Bytes)
  refs : List (String × Descriptor)
  temps : List TempDir
  scratch : Option String
  ro : Bool
  closed : Bool
  deriving DecidableEq

/-- A freshly created layout opened read-write. -/
def freshEngine : EngineState :=
  { blobs := [], refs := [], temps := [], scratch := none,
    ro := false, closed := false }

/-- Association lookup by key. -/
def lookupKey : List (String × α) → String → Option α
  | [], _ => none
  | (k, v) :: t, key => if k = key then some v else lookupKey t key

/-- Remove every entry with the given key. -/
def eraseKey (l : List (String × α)) (key : String) : List (String × α) :=
  l.filter (fun p => !(p.1 == key))

/-- Character membership in a character list. -/
def hasChar : List Char → Char → Bool
  | [], _ => false
  | c :: t, x => c == x || hasChar t x

/-- Valid reference names are single filename components: no path
separator, not `.` and not `..` (section 3 of the specification). -/
def validRefName (n : String) : Bool :=
  !(hasChar n.data '/') && n != "." && n != ".."

/-- Modelled from the spec: `PutBlob` streams the bytes through the
hasher into a scratch file and atomically renames them into place,
returning the digest and the observed byte count; when the destination
already exists the temp file is discarded and the existing digest is
reported (idempotent success). Write failure on read-only media surfaces
the read-only kind; a closed engine fails. -/
def putBlob (s : EngineState) (b : Bytes) :
    Except ErrKind ((String × Nat) × EngineState) :=
  if s.closed then .error .ioErr
  else if s.ro then .error .readOnly
  else
    let d := sha256Hex b
    match lookupKey s.blobs d with
    | some _ => .ok ((d, lenF 0 b), s)
    | none => .ok ((d, lenF 0 b), { s with blobs := (d, b) :: s.blobs })

/-- Modelled from the spec: `PutBlobJSON` serializes the value to
canonical JSON and delegates to `PutBlob`; the observed encoder ends the
blob with one newline. The argument is the canonical JSON text of the
value, produced by the encoders of this development. -/
def putBlobJSON (s : EngineState) (j : String) :
    Except ErrKind ((String × Nat) × EngineState) :=
  putBlob s (j.data ++ ['\n'])

/-- Modelled from the spec: `GetBlob` opens the blob for reading and
fails with the not-found kind when it is absent; reads never require a
writable store. -/
def getBlob (s : EngineState) (d : String) : Except ErrKind Bytes :=
  if s.closed then .error .ioErr
  else
    match lookupKey s.blobs d with
    | some b => .ok b
    | none => .error .notFound

/-- Modelled from the spec: `DeleteBlob` removes the blob; a missing
blob is success (idempotent). -/
def deleteBlob (s : EngineState) (d : String) : Except ErrKind EngineState :=
  if s.closed then .error .ioErr
  else if s.ro then .error .readOnly
  else .ok { s with blobs := eraseKey s.blobs d }

/-- Modelled from the spec: `ListBlobs` enumerates the stored digests. -/
def listBlobs (s : EngineState) : Except ErrKind (List String) :=
  if s.closed then .error .ioErr else .ok (s.blobs.map (fun p => p.1))

/-- Modelled from the spec: `PutReference` validates the name, then
atomically writes the descriptor, silently overwriting (last writer
wins); invalid names fail with the invalid-argument kind and store
nothing, and a read-only store fails at the write attempt. -/
def putReference (s : EngineState) (n : String) (d : Descriptor) :
    Except ErrKind EngineState :=
  if s.closed then .error .ioErr
  else if !(validRefName n) then .error .invalidArgument
  else if s.ro then .error .readOnly
  else .ok { s with refs := (n, d) :: eraseKey s.refs n }

/-- Modelled from the spec: `GetReference` reads and decodes the named
descriptor, failing with the not-found kind when absent. -/
def getReference (s : EngineState) (n : String) : Except ErrKind Descriptor :=
  if s.closed then .error .ioErr
  else
    match lookupKey s.refs n with
    | some d => .ok d
    | none => .error .notFound

/-- Modelled from the spec: `DeleteReference` removes the reference;
missing is success (idempotent). -/
def deleteReference (s : EngineState) (n : String) :
    Except ErrKind EngineState :=
  if s.closed then .error .ioErr
  else if s.ro then .error .readOnly
  else .ok { s with refs := eraseKey s.refs n }

/-- Modelled from the spec: `ListReferences` enumerates the names. -/
def listReferences (s : EngineState) : Except ErrKind (List String) :=
  if s.closed then .error .ioErr else .ok (s.refs.map (fun p => p.1))

/-- Modelled from the spec: `Clean` enumerates the temp directories of
the layout and removes those whose advisory lock can be acquired, that
is those owned by no live session; it never touches a directory whose
lock is held, nor the scratch directory of this engine instance. -/
def clean (s : EngineState) : Except ErrKind EngineState :=
  if s.closed then .error .ioErr
  else if s.ro then .error .readOnly
  else
    let keep := s.temps.filter (fun t => t.locked || s.scratch == some t.name)
    .ok { s with temps := keep }

/-- Decidable equality of operation results. -/
instance [DecidableEq ε] [DecidableEq α] : DecidableEq (Except ε α) := fun x y =>
  match x, y with
  | .error e, .error f =>
      if h : e = f then .isTrue (congrArg Except.error h)
      else .isFalse (fun hh => h (Except.error.inj hh))
  | .ok a, .ok b =>
      if h : a = b then .isTrue (congrArg Except.ok h)
      else .isFalse (fun hh => h (Except.ok.inj hh))
  | .error _, .ok _ => .isFalse (fun hh => Except.noConfusion hh)
  | .ok _, .error _ => .isFalse (fun hh => Except.noConfusion hh)

/-! ## The fixed layer of the end-to-end scenario

The scenario of section 8 pushes one tar archive holding a single file
`test` (mode 644, 13 bytes `some contents`). The archive is produced by
the tar writer of the standard library, an external collaborator of the
specified core; its byte-exact output is reproduced here field by field
in USTAR layout: each header field is an octal ASCII number padded with
a NUL, the checksum is the byte sum of the header with the checksum
field read as spaces (here 4115, octal 010023, format six digits, NUL,
space), the data block and the two trailer blocks are zero padded. -/

/-- Run of zero bytes. -/
def zeros (n : Nat) : Bytes := List.replicate n (Char.ofNat 0)

/-- The 2048 bytes of the fixed tar layer pushed by the scenario. -/
def tarLayerBytes : Bytes :=
  strBytes "test" ++ zeros 96 ++
  strBytes "0000644" ++ zeros 1 ++
  strBytes "0000000" ++ zeros 1 ++
  strBytes "0000000" ++ zeros 1 ++
  strBytes "00000000015" ++ zeros 1 ++
  strBytes "00000000000" ++ zeros 1 ++
  strBytes "010023" ++ zeros 1 ++ strBytes " " ++
  zeros 1 ++
  zeros 100 ++
  strBytes "ustar" ++ zeros 1 ++ strBytes "00" ++
  zeros 32 ++ zeros 32 ++
  strBytes "0000000" ++ zeros 1 ++
  strBytes "0000000" ++ zeros 1 ++
  zeros 155 ++ zeros 12 ++
  strBytes "some contents" ++ zeros 499 ++
  zeros 1024

/-- Layer digest the reference implementation observes (scenario 1). -/
def expectedLayerDigest : String :=
  "sha256:9a98de6b2015d531559791e60518fd376ddc62d3062ee4f691b223c06175dbef"

/-- Config digest the reference implementation observes (scenario 1). -/
def expectedConfigDigest : String :=
  "sha256:908705c0f681cd2a69225ce302aa7bfe52fca02ac1ff29318e285be03ceb9123"

/-- Manifest digest the reference implementation observes (scenario 1). -/
def expectedManifestDigest : String :=
  "sha256:a42c4536afbed929a7539d1c89a079ec4e24f7f157b309322ce3dabdc2bbcf32"

/-- The end-to-end scenario of section 8: create and open a layout, put
the fixed layer blob, put the config as a JSON blob (its sole diff ID is
the digest of the uncompressed layer stream, which for this scenario is
the layer blob itself), and put the manifest referencing both. Returns
the three digests, the final engine state and the manifest descriptor. -/
def scenarioRun :
    Except ErrKind ((String × String × String) × EngineState × Descriptor) := do
  let ((layerD, layerSz), s1) ← putBlob freshEngine tarLayerBytes
  let cfg : Image :=
    { created := zeroTime, author := "", architecture := "", os := "",
      config := { user := "default:user" },
      rootfs := { fsType := "layers", diffIDs := [layerD] },
      history := [{ created := zeroTime, createdBy := "", author := "",
                    comment := "", emptyLayer := false }] }
  let ((cfgD, cfgSz), s2) ← putBlobJSON s1 (encImage cfg)
  let mfst : Manifest :=
    { schemaVersion := 2,
      config := { mediaType := mtConfig, digest := cfgD, size := cfgSz },
      layers := [{ mediaType := mtLayerGzip, digest := layerD, size := layerSz }],
      annots := [] }
  let ((mD, mSz), s3) ← putBlobJSON s2 (encManifest mfst)
  .ok ((layerD, cfgD, mD), s3,
       { mediaType := mtManifest, digest := mD, size := mSz })

/-- The three digests the scenario produces. -/
def scenarioDigests : Except ErrKind (String × String × String) :=
  scenarioRun.map (fun r => r.1)

/-! ## JSON values and parsing

A small JSON reader, used to model decoding of the marker file, of
manifests and of image configs, mirroring a standard lenient decoder:
unknown fields are ignored and missing fields decode to zero values. -/

/-- JSON values (numbers are restricted to integers, which covers every
document in scope). -/
inductive JValue where
  | jnull
  | jbool (b : Bool)
  | jnum (n : Int)
  | jstr (s : String)
  | jarr (elems : List JValue)
  | jobj (fields : List (String × JValue))

/-- Skip blanks. -/
def skipWs : List Char → List Char
  | c :: t =>
      if c = ' ' || c = '\n' || c = '\t' || c = Char.ofNat 13 then skipWs t
      else c :: t
  | [] => []

/-- Hexadecimal digit test. -/
def isHexC (c : Char) : Bool :=
  c.isDigit || ('a' ≤ c && c ≤ 'f') || ('A' ≤ c && c ≤ 'F')

/-- Value of a hexadecimal digit. -/
def hexVal (c : Char) : Nat :=
  if c.isDigit then c.toNat - 48
  else if 'a' ≤ c && c ≤ 'f' then c.toNat - 87
  else c.toNat - 55

/-- Prepend a character to the first component of a parse result. -/
def consFst (c : Char) (r : Option (List Char × List Char)) :
    Option (List Char × List Char) :=
  r.map (fun p => (c :: p.1, p.2))

/-- Decode one escape sequence after a backslash: the standard escapes
and `\uXXXX` (no surrogate combining), returning the character and the
remaining input. -/
def unescape (l : List Char) : Option (Char × List Char) :=
  match l with
  | [] => none
  | e :: t =>
      if e = '"' then some ('"', t)
      else if e = '\\' then some ('\\', t)
      else if e = '/' then some ('/', t)
      else if e = 'b' then some (Char.ofNat 8, t)
      else if e = 'f' then some (Char.ofNat 12, t)
      else if e = 'n' then some ('\n', t)
      else if e = 'r' then some (Char.ofNat 13, t)
      else if e = 't' then some ('\t', t)
      else if e = 'u' then
        match t with
        | h1 :: h2 :: h3 :: h4 :: t2 =>
            if isHexC h1 && isHexC h2 && isHexC h3 && isHexC h4 then
              some (Char.ofNat (hexVal h1 * 4096 + hexVal h2 * 256 +
                                hexVal h3 * 16 + hexVal h4), t2)
            else none
        | _ => none
      else none

/-- Parse the body of a JSON string literal after its opening quote,
with one unit of fuel per produced character, returning the decoded
characters and the input after the closing quote. -/
def jStrParseF : Nat → List Char → Option (List Char × List Char)
  | 0, _ => none
  | _ + 1, [] => none
  | f + 1, c :: t =>
      if c = '"' then some ([], t)
      else if c = '\\' then
        match unescape t with
        | some (d, t2) => consFst d (jStrParseF f t2)
        | none => none
      else consFst c (jStrParseF f t)

/-- Parse a JSON string literal body with enough fuel for any input. -/
def jStrParse (s : List Char) : Option (List Char × List Char) :=
  jStrParseF (lenF 0 s + 1) s

/-- Munch decimal digits into an accumulator. -/
def natMunch : Nat → List Char → Nat × List Char
  | acc, [] => (acc, [])
  | acc, c :: t =>
      if c.isDigit then natMunch (acc * 10 + (c.toNat - 48)) t else (acc, c :: t)

/-- Parse an optionally signed decimal integer. -/
def intParse : List Char → Option (Int × List Char)
  | [] => none
  | c :: t =>
      if c = '-' then
        match t with
        | [] => none
        | c2 :: t2 =>
            if c2.isDigit then
              let p := natMunch (c2.toNat - 48) t2
              some (-(p.1 : Int), p.2)
            else none
      else if c.isDigit then
        let p := natMunch (c.toNat - 48) t
        some ((p.1 : Int), p.2)
      else none

/-- The head of a character list is not a decimal digit. -/
def noDigitHead : List Char → Prop
  | c :: _ => c.isDigit = false
  | [] => True

/-- JSON parser; the first argument is fuel, the second the production
(0 a value, 1 the items of a non-empty array, 2 the fields of a
non-empty object). -/
def jP : Nat → Nat → List Char → Option (JValue × List Char)
  | 0, _, _ => none
  | fuel + 1, 0, s =>
      match skipWs s with
      | 'n' :: 'u' :: 'l' :: 'l' :: t => some (.jnull, t)
      | 't' :: 'r' :: 'u' :: 'e' :: t => some (.jbool true, t)
      | 'f' :: 'a' :: 'l' :: 's' :: 'e' :: t => some (.jbool false, t)
      | '"' :: t => (jStrParse t).map (fun p => (.jstr (String.mk p.1), p.2))
      | '[' :: t =>
          (match skipWs t with
           | ']' :: t2 => some (.jarr [], t2)
           | _ => jP fuel 1 t)
      | c :: t =>
          if c = obraceC then
            (match skipWs t with
             | c2 :: t2 => if c2 = cbraceC then some (.jobj [], t2) else jP fuel 2 t
             | [] => none)
          else if c = '-' || c.isDigit then
            (intParse (c :: t)).map (fun p => (.jnum p.1, p.2))
          else none
      | [] => none
  | fuel + 1, 1, s => do
      let (v, r) ← jP fuel 0 s
      match skipWs r with
      | ',' :: r2 => do
          let (rest, r3) ← jP fuel 1 r2
          match rest with
          | .jarr l => some (.jarr (v :: l), r3)
          | _ => none
      | ']' :: r2 => some (.jarr [v], r2)
      | _ => none
  | fuel + 1, 2, s =>
      match skipWs s with
      | '"' :: t => do
          let (k, r) ← jStrParse t
          match skipWs r with
          | ':' :: r2 => do
              let (v, r3) ← jP fuel 0 r2
              (match skipWs r3 with
               | ',' :: r4 => do
                   let (rest, r5) ← jP fuel 2 r4
                   match rest with
                   | .jobj fs => some (.jobj ((String.mk k, v) :: fs), r5)
                   | _ => none
               | c :: r4 =>
                   if c = cbraceC then some (.jobj [(String.mk k, v)], r4)
                   else none
               | [] => none)
          | _ => none
      | _ => none
  | _ + 1, _, _ => none

/-- Parse a full JSON document, allowing trailing blanks. -/
def parseJson (s : String) : Option JValue :=
  match jP (2 * lenF 0 s.data + 4) 0 s.data with
  | some (v, r) => if (skipWs r).isEmpty then some v else none
  | none => none

/-- String content of a JSON value. -/
def asStr : JValue → Option String
  | .jstr s => some s
  | _ => none

/-- Non-negative number content of a JSON value. -/
def asNat : JValue → Option Nat
  | .jnum n => if n < 0 then none else some n.toNat
  | _ => none

/-- String with the zero value as default, as a lenient decoder does. -/
def asStrD (v : Option JValue) : String :=
  match v with
  | some (.jstr s) => s
  | _ => ""

/-- Boolean with the zero value as default. -/
def asBoolD (v : Option JValue) : Bool :=
  match v with
  | some (.jbool b) => b
  | _ => false

/-- Decode a descriptor. -/
def descOfJ : JValue → Option Descriptor
  | .jobj fs => do
      let mt ← (lookupKey fs "mediaType").bind asStr
      let dg ← (lookupKey fs "digest").bind asStr
      let sz ← (lookupKey fs "size").bind asNat
      some { mediaType := mt, digest := dg, size := sz }
  | _ => none

/-- Decode a list of descriptors. -/
def listDescOfJ : List JValue → Option (List Descriptor)
  | [] => some []
  | v :: t => do
      let d ← descOfJ v
      let r ← listDescOfJ t
      some (d :: r)

/-- Decode a manifest. -/
def manifestOfJ : JValue → Option Manifest
  | .jobj fs => do
      let sv ← (lookupKey fs "schemaVersion").bind asNat
      let cfg ← (lookupKey fs "config").bind descOfJ
      let lay ←
        match lookupKey fs "layers" with
        | some (.jarr l) => listDescOfJ l
        | _ => none
      let an :=
        match lookupKey fs "annotations" with
        | some (.jobj afs) =>
            afs.filterMap (fun p => (asStr p.2).map (fun v => (p.1, v)))
        | _ => []
      some { schemaVersion := sv, config := cfg, layers := lay, annots := an }
  | _ => none

/-- Decode a history entry with zero-value defaults. -/
def historyOfJ : JValue → Option History
  | .jobj fs =>
      some { created := asStrD (lookupKey fs "created"),
             createdBy := asStrD (lookupKey fs "created_by"),
             author := asStrD (lookupKey fs "author"),
             comment := asStrD (lookupKey fs "comment"),
             emptyLayer := asBoolD (lookupKey fs "empty_layer") }
  | _ => none

/-- Decode an image config with zero-value defaults. -/
def imageOfJ : JValue → Option Image
  | .jobj fs =>
      let cfgU :=
        match lookupKey fs "config" with
        | some (.jobj cfs) => asStrD (lookupKey cfs "User")
        | _ => ""
      let rf : RootFS :=
        match lookupKey fs "rootfs" with
        | some (.jobj rfs) =>
            { fsType := asStrD (lookupKey rfs "type"),
              diffIDs :=
                match lookupKey rfs "diff_ids" with
                | some (.jarr l) => l.filterMap asStr
                | _ => [] }
        | _ => { fsType := "", diffIDs := [] }
      let hist :=
        match lookupKey fs "history" with
        | some (.jarr l) => l.filterMap historyOfJ
        | _ => []
      some { created := asStrD (lookupKey fs "created"),
             author := asStrD (lookupKey fs "author"),
             architecture := asStrD (lookupKey fs "architecture"),
             os := asStrD (lookupKey fs "os"),
             config := { user := cfgU }, rootfs := rf, history := hist }
  | _ => none

/-! ## The object of the JSON blob round-trip test

The JSON blob test stores Go values of a two-field struct (a string
field `A`, an integer field `B` tagged `omitempty`) with `PutBlobJSON`
and reads them back with `GetBlob` followed by a JSON decode into the
same type. The struct, its canonical encoding and a decoder in the style
of the generic unmarshaler (unknown fields ignored, missing fields left
at the zero value) are embedded here. -/

/-- The object of the JSON blob test: a string field `A` and an
integer field `B` that is omitted when zero. -/
structure TestObject where
  A : String
  B : Int
deriving DecidableEq

/-- Canonical JSON encoding of the test object, `B` omitted at zero. -/
def encTestObject (o : TestObject) : String :=
  obr ++ jq "A" ++ ":" ++ jq o.A ++
    (if o.B = 0 then "" else "," ++ jq "B" ++ ":" ++ String.mk (intChars o.B)) ++
    cbr

/-- Parse one `"key":value` field, value a JSON string or integer,
binding the known keys of the test object and ignoring others. -/
def parseField (o : TestObject) (l : List Char) : Option (TestObject × List Char) :=
  match l with
  | c :: t =>
      if c = '"' then
        match jStrParse t with
        | some (k, r) =>
            match r with
            | c2 :: r2 =>
                if c2 = ':' then
                  match r2 with
                  | c3 :: r3 =>
                      if c3 = '"' then
                        match jStrParse r3 with
                        | some (v, r4) =>
                            some (if String.mk k = "A" then
                                    { o with A := String.mk v }
                                  else o, r4)
                        | none => none
                      else
                        match intParse r2 with
                        | some (n, r4) =>
                            some (if String.mk k = "B" then
                                    { o with B := n }
                                  else o, r4)
                        | none => none
                  | [] => none
                else none
            | [] => none
        | none => none
      else none
  | [] => none

/-- Parse the comma-separated fields of a non-empty object up to the
closing brace. -/
def parseFieldsF : Nat → TestObject → List Char → Option (TestObject × List Char)
  | 0, _, _ => none
  | f + 1, o, l =>
      match parseField o l with
      | some (o2, r) =>
          match r with
          | c :: t =>
              if c = ',' then parseFieldsF f o2 t
              else if c = cbraceC then some (o2, t)
              else none
          | [] => none
      | none => none

/-- Parse a JSON object into the test object, fields defaulting to the
zero value. -/
def parseObj (l : List Char) : Option (TestObject × List Char) :=
  match l with
  | c :: t =>
      if c = obraceC then
        match t with
        | c2 :: t2 =>
            if c2 = cbraceC then some (⟨"", 0⟩, t2)
            else parseFieldsF (lenF 0 t + 1) ⟨"", 0⟩ t
        | [] => none
      else none
  | [] => none

/-- Decode a test object from text, tolerating surrounding blanks. -/
def decodeTestObject (s : String) : Option TestObject :=
  match parseObj (skipWs s.data) with
  | some (o, r) => if (skipWs r).isEmpty then some o else none
  | none => none

/-! ## Layout validation

Modelled from the spec: `Open` validates the layout before returning a
handle (section 4.1): the marker file must hold JSON with the recognized
version, and `blobs/` and `refs/` must exist as directories; every
violation surfaces the invalid-layout kind. The directory tree under the
root is modelled structurally. -/

/-- A directory tree: regular files with contents, and directories. -/
inductive FsNode where
  | file (content : String)
  | dir (entries : List (String × FsNode))

/-- Name of the layout marker file. -/
def layoutFile : String := "oci-layout"

/-- Name of the blob directory. -/
def blobDirectory : String := "blobs"

/-- Name of the reference directory. -/
def refDirectory : String := "refs"

/-- The recognized layout version. -/
def layoutVersion : String := "1.0.0"

/-- Content of the marker file written by `Create`. -/
def markerContent : String := obr ++ "\"imageLayoutVersion\":\"1.0.0\"" ++ cbr

/-- Check the marker: a JSON object whose `imageLayoutVersion` field is
the recognized version. -/
def markerOK (content : String) : Bool :=
  match parseJson content with
  | some (.jobj fs) =>
      match lookupKey fs "imageLayoutVersion" with
      | some (.jstr v) => v == layoutVersion
      | _ => false
  | _ => false

/-- Modelled from the spec: validation performed by `Open` on the root
directory of a layout. -/
def openLayout : FsNode → Except ErrKind Unit
  | .file _ => .error .invalidLayout
  | .dir es =>
      match lookupKey es layoutFile with
      | some (.file c) =>
          if markerOK c then
            match lookupKey es blobDirectory with
            | some (.dir _) =>
                (match lookupKey es refDirectory with
                 | some (.dir _) => .ok ()
                 | _ => .error .invalidLayout)
            | _ => .error .invalidLayout
          else .error .invalidLayout
      | _ => .error .invalidLayout

/-- The directory tree produced by `Create`. -/
def createdLayout : FsNode :=
  .dir [(layoutFile, .file markerContent),
        (blobDirectory, .dir [("sha256", .dir [])]),
        (refDirectory, .dir [])]

/-! ## Gzip model

Modelled from the spec: `Add` gzip-compresses the caller-supplied
uncompressed tar stream while hashing it (section 4.2); the concrete
compressor is an external collaborator of the specified core. It is
modelled as a gzip stream carrying one stored (uncompressed) DEFLATE
block, which is a valid gzip encoding of the payload; no claim depends
on the exact compressed bytes. Payloads in scope are far below the
65535-byte limit of a single stored block. -/

/-- Eight shift steps of the reflected CRC-32 polynomial. -/
def crc8 : Nat → Nat → Nat
  | 0, c => c
  | k + 1, c => crc8 k (if c &&& 1 == 1 then (c >>> 1) ^^^ 0xEDB88320 else c >>> 1)

/-- CRC-32 over the bytes, with a forced accumulator. -/
def crc32Aux : Nat → Bytes → Nat
  | acc, [] => acc
  | acc, b :: t =>
      let acc2 := crc8 8 (acc ^^^ (b.toNat &&& 0xFF))
      if acc2 == 0 then crc32Aux acc2 t else crc32Aux acc2 t

/-- CRC-32 checksum (IEEE) of a byte list. -/
def crc32 (b : Bytes) : Nat := crc32Aux 0xFFFFFFFF b ^^^ 0xFFFFFFFF

/-- Little-endian encoding of a number on `n` bytes, as characters. -/
def leChars : Nat → Nat → List Char
  | 0, _ => []
  | n + 1, x => Char.ofNat (x &&& 0xFF) :: leChars n (x >>> 8)

/-- Gzip stream of a payload: header, one final stored DEFLATE block,
CRC-32 and size trailer. -/
def gzipBytes (b : Bytes) : Bytes :=
  let len := lenF 0 b
  [Char.ofNat 0x1f, Char.ofNat 0x8b, Char.ofNat 8, Char.ofNat 0,
   Char.ofNat 0, Char.ofNat 0, Char.ofNat 0, Char.ofNat 0,
   Char.ofNat 0, Char.ofNat 0xff, Char.ofNat 1] ++
  leChars 2 len ++ leChars 2 (0xFFFF ^^^ (len &&& 0xFFFF)) ++ b ++
  leChars 4 (crc32 b) ++ leChars 4 (len &&& 0xFFFFFFFF)

/-! ## Mutator

Modelled from the spec: the production mutator (package `mutate`) is not
among the given sources, only its test-suite is; the operations below
follow section 4.2 of the specification. A session caches the manifest
and the config as in-memory mutable copies; `Add` appends a gzip layer
descriptor, a diff ID and a non-empty-layer history entry; `Set`
replaces the runtime config, merges the meta fields, replaces the
annotations and appends an empty-layer history entry; `Commit` writes
config then manifest back through the CAS and returns the new manifest
descriptor. -/

/-- Cached state of a mutator session. -/
structure MState where
  manifest : Manifest
  config : Image
  deriving DecidableEq

/-- Top-level meta fields merged by `Set` (author, creation time). -/
structure MutateMeta where
  created : String
  author : String
  deriving DecidableEq

/-- The zero meta value (zero time, empty author). -/
def metaZero : MutateMeta := { created := zeroTime, author := "" }

/-- Modelled from the spec: construction checks that the source
descriptor carries the image-manifest media type; the cache load reads
the manifest blob and then the config blob it references, decoding both
from their canonical JSON. -/
def mutCache (s : EngineState) (d : Descriptor) : Except ErrKind MState :=
  if d.mediaType != mtManifest then .error .invalidArgument
  else do
    let mb ← getBlob s d.digest
    match (parseJson (String.mk mb)).bind manifestOfJ with
    | some m => do
        let cb ← getBlob s m.config.digest
        match (parseJson (String.mk cb)).bind imageOfJ with
        | some im => .ok { manifest := m, config := im }
        | none => .error .ioErr
    | none => .error .ioErr

/-- Modelled from the spec: append a layer of the given media type: the
diff ID is the digest of the uncompressed stream, the blob is its gzip
encoding, the history entry is forced to `empty_layer = false`. -/
def mutAddWith (mt : String) (s : EngineState) (ms : MState) (layer : Bytes)
    (h : History) : Except ErrKind (MState × EngineState) := do
  let diffid := sha256Hex layer
  let gz := gzipBytes layer
  let ((gzD, gzSz), s2) ← putBlob s gz
  let newLayers := ms.manifest.layers ++ [{ mediaType := mt, digest := gzD, size := gzSz }]
  let newRootfs := { ms.config.rootfs with diffIDs := ms.config.rootfs.diffIDs ++ [diffid] }
  let newHistory := ms.config.history ++ [{ h with emptyLayer := false }]
  let m2 := { ms.manifest with layers := newLayers }
  let c2 := { ms.config with rootfs := newRootfs, history := newHistory }
  .ok ({ manifest := m2, config := c2 }, s2)

/-- Modelled from the spec: `Add` appends a gzip distributable layer. -/
def mutAdd (s : EngineState) (ms : MState) (layer : Bytes) (h : History) :
    Except ErrKind (MState × EngineState) :=
  mutAddWith mtLayerGzip s ms layer h

/-- Modelled from the spec: `AddNonDistributable` appends a gzip
non-distributable layer. -/
def mutAddNonDist (s : EngineState) (ms : MState) (layer : Bytes)
    (h : History) : Except ErrKind (MState × EngineState) :=
  mutAddWith mtLayerNonDist s ms layer h

/-- Modelled from the spec: `Set` replaces the embedded runtime config,
merges the meta fields into the top-level config, replaces the manifest
annotations, and appends the history entry with `empty_layer = true`;
no layer is added. -/
def mutSet (ms : MState) (cfg : ImageConfig) (meta : MutateMeta)
    (an : List (String × String)) (h : History) : MState :=
  let m2 := { ms.manifest with annots := an }
  let newHistory := ms.config.history ++ [{ h with emptyLayer := true }]
  let c2 := { ms.config with config := cfg, created := meta.created,
                             author := meta.author, history := newHistory }
  { manifest := m2, config := c2 }

/-- Modelled from the spec: `Commit` writes the config blob, points the
manifest at it, writes the manifest blob, and returns the new manifest
descriptor; references are not touched. -/
def mutCommit (s : EngineState) (ms : MState) :
    Except ErrKind (Descriptor × MState × EngineState) := do
  let ((cfgD, cfgSz), s2) ← putBlobJSON s (encImage ms.config)
  let m2 := { ms.manifest with config := { mediaType := mtConfig, digest := cfgD, size := cfgSz } }
  let ((mD, mSz), s3) ← putBlobJSON s2 (encManifest m2)
  .ok ({ mediaType := mtManifest, digest := mD, size := mSz },
       { ms with manifest := m2 }, s3)

/-! ## Concrete mutator scenarios

The `Add` and `Set` scenarios of the test-suite, run from the committed
end-to-end image: the chains return the source descriptor, the new
descriptor, and the session state reloaded from the committed manifest
through a fresh cache. -/

/-- History entry supplied to `Add` (only the comment is set; the time
field of the zero value prints as the zero timestamp). -/
def newLayerHistory : History :=
  { created := zeroTime, createdBy := "", author := "",
    comment := "new layer", emptyLayer := false }

/-- History entry supplied to `Set`. -/
def anotherLayerHistory : History :=
  { created := zeroTime, createdBy := "", author := "",
    comment := "another layer", emptyLayer := false }

/-- Run the `Add` scenario: open a mutator on the scenario image, add a
layer from the bytes `contents` with the comment `new layer`, commit,
and reload from the returned descriptor. -/
def c2Run : Except ErrKind (Descriptor × Descriptor × MState) := do
  let (_, s0, d0) ← scenarioRun
  let ms ← mutCache s0 d0
  let (ms1, s1) ← mutAdd s0 ms (strBytes "contents") newLayerHistory
  let (d1, _, s2) ← mutCommit s1 ms1
  let ms3 ← mutCache s2 d1
  .ok (d0, d1, ms3)

/-- All checks of the `Add` scenario: the new descriptor differs from
the source, the reloaded manifest has exactly two layers with the first
digest unchanged and the second of the gzip media type, the config
digest changed, the diff IDs grew to two, and the history grew to two
with a final non-empty-layer entry carrying the supplied comment. -/
def c2Check : Bool :=
  match c2Run with
  | .ok (d0, d1, ms) =>
      (match ms.manifest.layers, ms.config.rootfs.diffIDs, ms.config.history with
       | [l0, l1], [dd0, _], [_, h1] =>
           d1.digest != d0.digest &&
           ms.manifest.config.digest != expectedConfigDigest &&
           l0.digest == expectedLayerDigest &&
           l1.digest != expectedLayerDigest &&
           l1.mediaType == mtLayerGzip &&
           dd0 == expectedLayerDigest &&
           h1.emptyLayer == false &&
           h1.comment == "new layer"
       | _, _, _ => false)
  | .error _ => false

/-- Run the `Set` scenario: open a mutator on the scenario image,
replace the runtime config by one with user `changed:user`, commit, and
reload from the returned descriptor. -/
def c5Run : Except ErrKind (Descriptor × Descriptor × MState) := do
  let (_, s0, d0) ← scenarioRun
  let ms ← mutCache s0 d0
  let ms1 := mutSet ms { user := "changed:user" } metaZero [] anotherLayerHistory
  let (d1, _, s2) ← mutCommit s0 ms1
  let ms3 ← mutCache s2 d1
  .ok (d0, d1, ms3)

/-- All checks of the `Set` scenario: the new descriptor differs from
the source, the layers and diff IDs are unchanged (still exactly the
source layer), the config digest changed, the user was replaced, and
one empty-layer history entry with the supplied comment was appended. -/
def c5Check : Bool :=
  match c5Run with
  | .ok (d0, d1, ms) =>
      (match ms.manifest.layers, ms.config.rootfs.diffIDs, ms.config.history with
       | [l0], [dd0], [_, h1] =>
           d1.digest != d0.digest &&
           ms.manifest.config.digest != expectedConfigDigest &&
           l0.mediaType == mtLayerGzip &&
           l0.digest == expectedLayerDigest &&
           l0.size == 2048 &&
           dd0 == expectedLayerDigest &&
           ms.config.config.user == "changed:user" &&
           h1.emptyLayer == true &&
           h1.comment == "another layer"
       | _, _, _ => false)
  | .error _ => false

/-! ## Helper lemmas -/

/-- The strict length accumulator computes the length. -/
theorem lenF_go (l : List α) : ∀ acc, lenF acc l = acc + l.length := by
  induction l with
  | nil => intro acc; simp [lenF]
  | cons x t ih =>
      intro acc
      simp only [lenF, ite_self]
      rw [ih]
      simp [List.length_cons]
      omega

/-- The strict length accumulator started at zero is the length. -/
theorem lenF_eq (l : List α) : lenF 0 l = l.length := by
  simpa using lenF_go l 0

/-- Lookup after erasing a key finds nothing. -/
theorem lookup_eraseKey (l : List (String × α)) (k : String) :
    lookupKey (eraseKey l k) k = none := by
  induction l with
  | nil => simp [eraseKey, lookupKey]
  | cons p t ih =>
      by_cases h : p.1 = k
      · simpa [eraseKey, List.filter_cons, h] using ih
      · simpa [eraseKey, List.filter_cons, h, lookupKey] using ih

/-- Rebuilding a character from its code point is the identity. -/
theorem charOfNat_toNat (c : Char) : Char.ofNat c.toNat = c := by
  have hv : c.toNat.isValidChar := c.valid
  simp only [Char.ofNat, hv, Char.ofNatAux, dif_pos]
  apply Char.ext
  apply UInt32.eq_of_toBitVec_eq
  apply BitVec.eq_of_toNat_eq
  simp [Char.toNat, UInt32.toNat]

/-- Hex digits of values below 16 satisfy the hex predicate and map
back to their value. -/
theorem hexDigit_roundtrip : ∀ n, n < 16 →
    isHexC (hexDigit n) = true ∧ hexVal (hexDigit n) = n := by decide

/-- Main per-character lemma: one fuel unit parses one escaped
character, whatever its escape length. -/
theorem jStrParseF_escChar (c : Char) (rest : List Char) (f : Nat) :
    jStrParseF (f + 1) (escChar c ++ rest) = consFst c (jStrParseF f rest) := by
  by_cases h1 : c = '"'
  · subst h1; simp [escChar, jStrParseF, unescape]
  by_cases h2 : c = '\\'
  · subst h2; simp [escChar, jStrParseF, unescape]
  by_cases h3 : c = '\n'
  · subst h3; simp [escChar, jStrParseF, unescape]
  by_cases h4 : c = '\r'
  · subst h4; simp [escChar, jStrParseF, unescape]
  by_cases h5 : c = '\t'
  · subst h5; simp [escChar, jStrParseF, unescape]
  by_cases h6 : c = '<'
  · subst h6; simp [escChar, jStrParseF, unescape, isHexC, hexVal]
  by_cases h7 : c = '>'
  · subst h7; simp [escChar, jStrParseF, unescape, isHexC, hexVal]
  by_cases h8 : c = '&'
  · subst h8; simp [escChar, jStrParseF, unescape, isHexC, hexVal]
  by_cases h9 : c.toNat < 32
  · have hq : c.toNat / 16 < 16 := by omega
    have hr : c.toNat % 16 < 16 := Nat.mod_lt _ (by omega)
    have hdq := hexDigit_roundtrip _ hq
    have hdr := hexDigit_roundtrip _ hr
    have h0 : isHexC '0' = true := by decide
    have hval : hexVal '0' * 4096 + hexVal '0' * 256 +
        hexVal (hexDigit (c.toNat / 16)) * 16 + hexVal (hexDigit (c.toNat % 16)) = c.toNat := by
      rw [hdq.2, hdr.2]
      have := Nat.div_add_mod c.toNat 16
      simp [hexVal]
      omega
    simp [escChar, h1, h2, h3, h4, h5, h6, h7, h8, h9]
    simp [jStrParseF, unescape, h0, hdq.1, hdr.1, hval, charOfNat_toNat]
  by_cases h10 : c.toNat = 0x2028
  · have hc : c = Char.ofNat 0x2028 := by rw [← h10, charOfNat_toNat]
    subst hc
    simp [escChar, jStrParseF, unescape, isHexC, hexVal]
  by_cases h11 : c.toNat = 0x2029
  · have hc : c = Char.ofNat 0x2029 := by rw [← h11, charOfNat_toNat]
    subst hc
    simp [escChar, jStrParseF, unescape, isHexC, hexVal]
  · simp [escChar, h1, h2, h3, h4, h5, h6, h7, h8, h9, h10, h11]
    simp [jStrParseF, h1, h2]

/-- Parsing the escaped string with one fuel unit per character and one
for the closing quote yields the original characters. -/
theorem jStrParseF_escString (s : List Char) (rest : List Char) :
    jStrParseF (s.length + 1) (escString s ++ '"' :: rest) = some (s, rest) := by
  induction s generalizing rest with
  | nil => simp [escString, jStrParseF]
  | cons c t ih =>
      simp only [escString, List.flatMap_cons, List.append_assoc, List.length_cons]
      rw [show t.length + 1 + 1 = (t.length + 1) + 1 from rfl]
      rw [jStrParseF_escChar c (t.flatMap escChar ++ '"' :: rest) (t.length + 1)]
      have ih2 := ih rest
      simp only [escString] at ih2
      rw [ih2]
      simp [consFst]

/-- More fuel never changes a successful parse. -/
theorem jStrParseF_mono : ∀ (f g : Nat) (s : List Char) (r : List Char × List Char),
    jStrParseF f s = some r → f ≤ g → jStrParseF g s = some r := by
  intro f
  induction f with
  | zero => intro g s r h; simp [jStrParseF] at h
  | succ f ih =>
      intro g s r h hfg
      obtain ⟨g2, rfl⟩ : ∃ g2, g = g2 + 1 := ⟨g - 1, by omega⟩
      cases s with
      | nil => simp [jStrParseF] at h
      | cons c t =>
          simp only [jStrParseF] at h ⊢
          by_cases hc : c = '"'
          · simpa [hc] using h
          by_cases hb : c = '\\'
          · simp only [hc, hb, if_true, if_false, if_neg, if_pos rfl] at h ⊢
            cases hu : unescape t with
            | none => simp [hu] at h
            | some p =>
                simp only [hu] at h ⊢
                cases hin : jStrParseF f p.2 with
                | none => simp [hin, consFst] at h
                | some r2 =>
                    rw [ih g2 p.2 r2 hin (by omega)]
                    simpa [hin, consFst] using h
          · simp only [hc, hb, if_false, if_neg] at h ⊢
            cases hin : jStrParseF f t with
            | none => simp [hin, consFst] at h
            | some r2 =>
                rw [ih g2 t r2 hin (by omega)]
                simpa [hin, consFst] using h

/-- Every escape produces at least one character. -/
theorem escChar_length_pos (c : Char) : 1 ≤ (escChar c).length := by
  have hite : ∀ (b : Prop) (inst : Decidable b) (x y : List Char),
      1 ≤ x.length → 1 ≤ y.length → 1 ≤ (if b then x else y).length := by
    intro b inst x y hx hy
    by_cases hb : b
    · simpa [hb] using hx
    · simpa [hb] using hy
  unfold escChar
  refine hite _ _ _ _ (by simp) (hite _ _ _ _ (by simp) (hite _ _ _ _ (by simp)
    (hite _ _ _ _ (by simp) (hite _ _ _ _ (by simp) (hite _ _ _ _ (by simp)
    (hite _ _ _ _ (by simp) (hite _ _ _ _ (by simp) (hite _ _ _ _ (by simp)
    (hite _ _ _ _ (by simp) (hite _ _ _ _ (by simp) (by simp)))))))))))

/-- Escaping does not shorten a string. -/
theorem escString_length_ge (s : List Char) : s.length ≤ (escString s).length := by
  induction s with
  | nil => simp [escString]
  | cons c t ih =>
      simp only [escString, List.flatMap_cons, List.length_append, List.length_cons]
      have := escChar_length_pos c
      simp only [escString] at ih
      omega

/-- The default-fuel string parser decodes an escaped string. -/
theorem jStrParse_escString (s : List Char) (rest : List Char) :
    jStrParse (escString s ++ '"' :: rest) = some (s, rest) := by
  apply jStrParseF_mono _ _ _ _ (jStrParseF_escString s rest)
  rw [lenF_eq]
  have := escString_length_ge s
  simp [List.length_append]
  omega

/-- Enough fuel makes the digit printer independent of the exact fuel. -/
theorem natCharsAux_stable (n : Nat) : ∀ f g, n < f → n < g →
    natCharsAux f n = natCharsAux g n := by
  induction n using Nat.strong_induction_on with
  | _ n ih =>
      intro f g hf hg
      obtain ⟨f2, rfl⟩ : ∃ f2, f = f2 + 1 := ⟨f - 1, by omega⟩
      obtain ⟨g2, rfl⟩ : ∃ g2, g = g2 + 1 := ⟨g - 1, by omega⟩
      simp only [natCharsAux]
      by_cases h : n < 10
      · simp [h]
      · simp only [h, if_false]
        rw [ih (n / 10) (by omega) f2 g2 (by omega) (by omega)]

/-- Unfolding equation of the digit printer. -/
theorem natChars_unfold (n : Nat) :
    natChars n = if n < 10 then [Char.ofNat (48 + n)]
                 else natChars (n / 10) ++ [Char.ofNat (48 + n % 10)] := by
  show natCharsAux (n + 1) n = _
  by_cases h : n < 10
  · simp [natCharsAux, h]
  · simp only [natCharsAux, h, if_false]
    rw [natCharsAux_stable (n / 10) n (n / 10 + 1) (by omega) (by omega)]
    rfl

/-- Decimal digit characters are digits and carry their value. -/
theorem digitChar_spec : ∀ n, n < 10 →
    (Char.ofNat (48 + n)).isDigit = true ∧ (Char.ofNat (48 + n)).toNat = 48 + n := by
  decide

/-- Munching the printed digits accumulates the printed value. -/
theorem natMunch_natChars (n : Nat) : ∀ acc rest,
    natMunch acc (natChars n ++ rest) =
      natMunch (acc * 10 ^ (natChars n).length + n) rest := by
  induction n using Nat.strong_induction_on with
  | _ n ih =>
      intro acc rest
      rw [natChars_unfold n]
      by_cases h : n < 10
      · simp only [h, if_true]
        have hd := digitChar_spec n h
        simp only [List.cons_append, List.nil_append, natMunch, hd.1, hd.2,
                   if_true, List.length_cons, List.length_nil]
        have harg : acc * 10 + (48 + n - 48) = acc * 10 ^ (0 + 1) + n := by
          rw [show (0 : Nat) + 1 = 1 from rfl, pow_one]
          omega
        rw [harg]
        simp
      · simp only [h, if_false]
        rw [List.append_assoc]
        rw [ih (n / 10) (by omega) acc ([Char.ofNat (48 + n % 10)] ++ rest)]
        have hd := digitChar_spec (n % 10) (Nat.mod_lt _ (by omega))
        simp only [List.singleton_append, natMunch, hd.1, hd.2, if_true,
                   List.length_append, List.length_cons, List.length_nil]
        have hmod := Nat.div_add_mod n 10
        have harg : (acc * 10 ^ (natChars (n / 10)).length + n / 10) * 10 +
            (48 + n % 10 - 48) = acc * 10 ^ ((natChars (n / 10)).length + (0 + 1)) + n := by
          rw [show (0 : Nat) + 1 = 1 from rfl, pow_succ, ← mul_assoc]
          generalize acc * 10 ^ (natChars (n / 10)).length = M
          omega
        rw [harg]
        simp

/-- The printed digits start with a digit character. -/
theorem natChars_head (n : Nat) : ∃ d t, natChars n = d :: t ∧
    d.isDigit = true ∧ d ≠ '-' := by
  induction n using Nat.strong_induction_on with
  | _ n ih =>
      rw [natChars_unfold n]
      by_cases h : n < 10
      · have hd := digitChar_spec n h
        refine ⟨Char.ofNat (48 + n), [], by simp [h], hd.1, ?_⟩
        intro hcontra
        have := congrArg Char.toNat hcontra
        rw [hd.2] at this
        simp at this
        omega
      · obtain ⟨d, t, hshape, hdig, hdash⟩ := ih (n / 10) (by omega)
        exact ⟨d, t ++ [Char.ofNat (48 + n % 10)], by simp [h, hshape], hdig, hdash⟩

/-- Munching with nothing to munch returns the accumulator. -/
theorem natMunch_stop (acc : Nat) (rest : List Char) (h : noDigitHead rest) :
    natMunch acc rest = (acc, rest) := by
  cases rest with
  | nil => simp [natMunch]
  | cons c t => simp [natMunch, noDigitHead] at h ⊢; simp [h]

/-- Parsing the printed integer returns the integer. -/
theorem intParse_intChars (i : Int) (rest : List Char) (h : noDigitHead rest) :
    intParse (intChars i ++ rest) = some (i, rest) := by
  obtain ⟨d, t, hshape, hdig, hdash⟩ := natChars_head i.natAbs
  have hmm : natMunch (d.toNat - 48) (t ++ rest) = (i.natAbs, rest) := by
    have hcore : natMunch 0 (natChars i.natAbs ++ rest) = (i.natAbs, rest) := by
      rw [natMunch_natChars i.natAbs 0 rest]
      simpa using natMunch_stop i.natAbs rest h
    rw [hshape] at hcore
    simpa [natMunch, hdig] using hcore
  obtain hneg | hpos := lt_or_ge i 0
  · have hic : intChars i = '-' :: natChars i.natAbs := by simp [intChars, hneg]
    rw [hic, hshape]
    simp [intParse, hdig, hmm]
    simp [abs_of_neg hneg]
  · have hnn : ¬ i < 0 := by omega
    have hic : intChars i = natChars i.natAbs := by simp [intChars, hnn]
    rw [hic, hshape]
    simp [intParse, hdig, hdash, hmm]
    omega

/-- A string field parses back, binding `A` when that is the key. -/
theorem parseField_str (o : TestObject) (k v : List Char) (r : List Char) :
    parseField o ('"' :: (escString k ++ '"' :: ':' :: '"' :: (escString v ++ '"' :: r)))
    = some (if String.mk k = "A" then { o with A := String.mk v } else o, r) := by
  simp only [parseField, if_pos rfl]
  rw [jStrParse_escString k (':' :: '"' :: (escString v ++ '"' :: r))]
  simp only [if_pos rfl]
  rw [jStrParse_escString v r]
  simp

/-- An integer field parses back, binding `B` when that is the key. -/
theorem parseField_int (o : TestObject) (k : List Char) (n : Int) (r : List Char)
    (hr : noDigitHead r) :
    parseField o ('"' :: (escString k ++ '"' :: ':' :: (intChars n ++ r)))
    = some (if String.mk k = "B" then { o with B := n } else o, r) := by
  obtain ⟨d, t, hshape, hdig, hdash⟩ := natChars_head n.natAbs
  have hq : ∀ dd : Char, dd.isDigit = true → dd ≠ '"' := by
    intro dd hdd hcontra
    subst hcontra
    simp [Char.isDigit] at hdd
  have hq2 : ('-' : Char) ≠ '"' := by decide
  simp only [parseField, if_pos rfl]
  rw [jStrParse_escString k (':' :: (intChars n ++ r))]
  simp only [if_pos rfl]
  have hip := intParse_intChars n r hr
  by_cases hneg : n < 0
  · have hic : intChars n = '-' :: natChars n.natAbs := by simp [intChars, hneg]
    rw [hic]
    simp only [List.cons_append, if_neg hq2]
    rw [hic] at hip
    simp only [List.cons_append] at hip
    rw [hip]
    simp
  · have hic : intChars n = natChars n.natAbs := by simp [intChars, hneg]
    rw [hic, hshape]
    simp only [List.cons_append, if_neg (hq d hdig)]
    rw [hic, hshape] at hip
    simp only [List.cons_append] at hip
    rw [hip]
    simp

/-- More fuel never changes a successful field parse. -/
theorem parseFieldsF_mono : ∀ (f g : Nat) (o : TestObject) (l : List Char)
    (r : TestObject × List Char),
    parseFieldsF f o l = some r → f ≤ g → parseFieldsF g o l = some r := by
  intro f
  induction f with
  | zero => intro g o l r h; simp [parseFieldsF] at h
  | succ f ih =>
      intro g o l r h hfg
      obtain ⟨g2, rfl⟩ : ∃ g2, g = g2 + 1 := ⟨g - 1, by omega⟩
      simp only [parseFieldsF] at h ⊢
      cases hp : parseField o l with
      | none => simp [hp] at h
      | some p =>
          simp only [hp] at h ⊢
          cases hr : p.2 with
          | nil => simp [hr] at h
          | cons c t =>
              simp only [hr] at h ⊢
              by_cases hc : c = ','
              · simp only [hc, if_pos rfl] at h ⊢
                exact ih g2 p.1 t r h (by omega)
              · simpa [hc] using h

/-- The encoded bytes of an object with `B` zero, newline appended. -/
theorem encTestObject_data_zero (o : TestObject) (h : o.B = 0) :
    (encTestObject o).data ++ ['\n'] =
      obraceC :: ('"' :: (escString "A".data ++ '"' :: ':' :: '"' ::
        (escString o.A.data ++ '"' :: (cbraceC :: ['\n'])))) := by
  have happ : ∀ s t : String, (s ++ t).data = s.data ++ t.data := fun _ _ => rfl
  have hob : obr.data = [obraceC] := rfl
  have hcb : cbr.data = [cbraceC] := rfl
  have hqd : ("\"" : String).data = ['"'] := rfl
  have hcolon : (":" : String).data = [':'] := rfl
  have hmk : ∀ l : List Char, (String.mk l).data = l := fun _ => rfl
  simp only [encTestObject, h, if_pos, jq, happ, hob, hcb, hqd, hcolon, hmk]
  simp

/-- The encoded bytes of an object with `B` non-zero, newline appended. -/
theorem encTestObject_data_nonzero (o : TestObject) (h : ¬ o.B = 0) :
    (encTestObject o).data ++ ['\n'] =
      obraceC :: ('"' :: (escString "A".data ++ '"' :: ':' :: '"' ::
        (escString o.A.data ++ '"' ::
          (',' :: ('"' :: (escString "B".data ++ '"' :: ':' ::
            (intChars o.B ++ (cbraceC :: ['\n'])))))))) := by
  have happ : ∀ s t : String, (s ++ t).data = s.data ++ t.data := fun _ _ => rfl
  have hob : obr.data = [obraceC] := rfl
  have hcb : cbr.data = [cbraceC] := rfl
  have hqd : ("\"" : String).data = ['"'] := rfl
  have hcolon : (":" : String).data = [':'] := rfl
  have hcomma : ("," : String).data = [','] := rfl
  have hmk : ∀ l : List Char, (String.mk l).data = l := fun _ => rfl
  simp only [encTestObject, h, if_neg, jq, happ, hob, hcb, hqd, hcolon, hcomma, hmk]
  simp

/-- Parsing the encoded object returns the object and the newline. -/
theorem parseObj_enc (o : TestObject) :
    parseObj ((encTestObject o).data ++ ['\n']) = some (o, ['\n']) := by
  obtain ⟨a, b⟩ := o
  have hmkA : String.mk ("A".data) = "A" := rfl
  have hmkB : String.mk (['B']) = "B" := rfl
  have hmka : String.mk a.data = a := rfl
  by_cases h : b = 0
  · subst h
    rw [encTestObject_data_zero ⟨a, 0⟩ rfl]
    simp only [parseObj, if_pos rfl]
    rw [if_neg (by decide : ¬ ('"' : Char) = cbraceC)]
    apply parseFieldsF_mono 1
    · simp only [parseFieldsF]
      rw [parseField_str ⟨"", 0⟩ "A".data a.data (cbraceC :: ['\n'])]
      simp [hmkA, hmka]
      decide
    · omega
  · rw [encTestObject_data_nonzero ⟨a, b⟩ h]
    simp only [parseObj, if_pos rfl]
    rw [if_neg (by decide : ¬ ('"' : Char) = cbraceC)]
    apply parseFieldsF_mono 2
    · simp only [parseFieldsF]
      rw [parseField_str ⟨"", 0⟩ "A".data a.data
          (',' :: ('"' :: (escString "B".data ++ '"' :: ':' ::
            (intChars b ++ (cbraceC :: ['\n'])))))]
      simp only [hmkA, hmka, eq_self_iff_true, if_true]
      rw [parseField_int ⟨a, 0⟩ ['B'] b (cbraceC :: ['\n'])
        (by simp only [noDigitHead]; decide)]
      simp [hmkB]
      decide
    · rw [lenF_go]
      simp

/-- Decoding the stored blob text gives back the object. -/
theorem decodeTestObject_enc (o : TestObject) :
    decodeTestObject (String.mk ((encTestObject o).data ++ ['\n'])) = some o := by
  have hmk : (String.mk ((encTestObject o).data ++ ['\n'])).data =
      (encTestObject o).data ++ ['\n'] := rfl
  have hsw : skipWs ((encTestObject o).data ++ ['\n']) =
      (encTestObject o).data ++ ['\n'] := by
    by_cases h : o.B = 0
    · rw [encTestObject_data_zero o h]
      simp only [skipWs]
      rw [if_neg (by decide)]
    · rw [encTestObject_data_nonzero o h]
      simp only [skipWs]
      rw [if_neg (by decide)]
  simp only [decodeTestObject, hmk, hsw, parseObj_enc]
  rw [show skipWs ['\n'] = [] from rfl]
  simp

/-! ## Claims about the engine -/

/-- C1: for every byte sequence, `PutBlob` on an open read-write engine
returns the digest of the store algorithm together with the byte count,
and a subsequent `GetBlob` of that digest streams back exactly the same
bytes; the digest of the empty sequence is the well-known empty-sha256
value. The third hypothesis states that the store holds no foreign bytes
under this digest (it is satisfied both by a fresh store and by the
idempotent re-put of the same content, and rules out only a hash
collision). -/
theorem putBlob_getBlob_roundtrip :
    (∀ (b : Bytes) (s : EngineState), s.closed = false → s.ro = false →
      (∀ bs, lookupKey s.blobs (sha256Hex b) = some bs → bs = b) →
      ∃ s2, putBlob s b = .ok ((sha256Hex b, b.length), s2) ∧
        getBlob s2 (sha256Hex b) = .ok b) ∧
    sha256Hex [] =
      "sha256:e3b0c44298fc1c149afbf4c8996fb92427ae41e4649b934ca495991b7852b855" := by
  constructor
  · intro b s hcl hro hcoll
    cases hl : lookupKey s.blobs (sha256Hex b) with
    | none =>
        refine ⟨{ s with blobs := (sha256Hex b, b) :: s.blobs }, ?_, ?_⟩
        · simp [putBlob, hcl, hro, hl, lenF_eq]
        · simp [getBlob, hcl, lookupKey]
    | some bs =>
        have hbs := hcoll bs hl
        subst hbs
        refine ⟨s, ?_, ?_⟩
        · simp [putBlob, hcl, hro, hl, lenF_eq]
        · simp [getBlob, hcl, hl]
  · decide

/-- Witness: the round trip evaluated on a concrete blob in a fresh
store. -/
theorem putBlob_getBlob_roundtrip_witness :
    freshEngine.closed = false ∧ freshEngine.ro = false ∧
    ∃ s2, putBlob freshEngine (strBytes "some blob") =
        .ok ((sha256Hex (strBytes "some blob"), (strBytes "some blob").length), s2) ∧
      getBlob s2 (sha256Hex (strBytes "some blob")) = .ok (strBytes "some blob") :=
  ⟨rfl, rfl, putBlob_getBlob_roundtrip.1 (strBytes "some blob") freshEngine rfl rfl
    (fun bs h => by simp [freshEngine, lookupKey] at h)⟩

/-- C4: garbage collection through an independent engine removes a
foreign temp directory owned by no live session (its lock is free) but
never removes the scratch directory of a live engine (its lock is
held). -/
theorem clean_spares_live_scratch (s : EngineState) (nA nF : String)
    (hcl : s.closed = false) (hro : s.ro = false)
    (hA : TempDir.mk nA true ∈ s.temps) (_hF : TempDir.mk nF false ∈ s.temps)
    (hown : s.scratch ≠ some nF) :
    ∃ s2, clean s = .ok s2 ∧
      TempDir.mk nA true ∈ s2.temps ∧ TempDir.mk nF false ∉ s2.temps := by
  refine ⟨{ s with temps := s.temps.filter (fun t => t.locked || s.scratch == some t.name) }, ?_, ?_, ?_⟩
  · simp [clean, hcl, hro]
  · simp [List.mem_filter]
    exact hA
  · simp [List.mem_filter, beq_iff_eq, hown]

/-- Witness: a layout holding the live scratch directory of engine A
(lock held) and an abandoned foreign directory, cleaned through an
independent engine B. -/
theorem clean_spares_live_scratch_witness :
    (let sB : EngineState :=
      { blobs := [], refs := [],
        temps := [TempDir.mk ".temp-A" true, TempDir.mk "testdir" false],
        scratch := some ".temp-B", ro := false, closed := false }
     ∃ s2, clean sB = .ok s2 ∧
       TempDir.mk ".temp-A" true ∈ s2.temps ∧
       TempDir.mk "testdir" false ∉ s2.temps) :=
  clean_spares_live_scratch _ ".temp-A" "testdir" rfl rfl
    (by decide) (by decide) (by decide)

/-- C6: opening fails with the invalid-layout kind on an empty
directory, on a marker holding `invalid JSON`, on a marker holding an
object without the version field, on a layout whose blob directory is
missing or replaced by a regular file, and on a layout whose reference
directory is missing or replaced by a regular file; the validation
accepts a freshly created layout. -/
theorem openLayout_invalid_cases :
    openLayout (.dir []) = .error .invalidLayout ∧
    openLayout (.dir [(layoutFile, .file "invalid JSON")]) = .error .invalidLayout ∧
    openLayout (.dir [(layoutFile, .file (obr ++ cbr))]) = .error .invalidLayout ∧
    openLayout (.dir [(layoutFile, .file markerContent),
                      (refDirectory, .dir [])]) = .error .invalidLayout ∧
    openLayout (.dir [(layoutFile, .file markerContent),
                      (blobDirectory, .file ""),
                      (refDirectory, .dir [])]) = .error .invalidLayout ∧
    openLayout (.dir [(layoutFile, .file markerContent),
                      (blobDirectory, .dir [("sha256", .dir [])])]) = .error .invalidLayout ∧
    openLayout (.dir [(layoutFile, .file markerContent),
                      (blobDirectory, .dir [("sha256", .dir [])]),
                      (refDirectory, .file "")]) = .error .invalidLayout ∧
    openLayout createdLayout = .ok () := by
  decide

/-- C7: with the layout remounted read-only, validation still succeeds,
every read returns the data written before the remount, and every write
fails with the read-only kind; back on a writable mount the writes
succeed again. -/
theorem readonly_reads_ok_writes_fail (s : EngineState) (hcl : s.closed = false) :
    (openLayout createdLayout = .ok ()) ∧
    (∀ d bs, lookupKey s.blobs d = some bs →
       getBlob { s with ro := true } d = .ok bs) ∧
    (∀ n dd, lookupKey s.refs n = some dd →
       getReference { s with ro := true } n = .ok dd) ∧
    (listBlobs { s with ro := true } = .ok (s.blobs.map (fun p => p.1))) ∧
    (listReferences { s with ro := true } = .ok (s.refs.map (fun p => p.1))) ∧
    (∀ b, putBlob { s with ro := true } b = .error .readOnly) ∧
    (∀ j, putBlobJSON { s with ro := true } j = .error .readOnly) ∧
    (∀ n dd, validRefName n = true →
       putReference { s with ro := true } n dd = .error .readOnly) ∧
    (∀ b, ∃ r, putBlob { s with ro := false } b = .ok r) ∧
    (∀ n dd, validRefName n = true →
       ∃ s2, putReference { s with ro := false } n dd = .ok s2) := by
  refine ⟨by decide, ?_, ?_, ?_, ?_, ?_, ?_, ?_, ?_, ?_⟩
  · intro d bs h; simp [getBlob, hcl, h]
  · intro n dd h; simp [getReference, hcl, h]
  · simp [listBlobs, hcl]
  · simp [listReferences, hcl]
  · intro b; simp [putBlob, hcl]
  · intro j; simp [putBlobJSON, putBlob, hcl]
  · intro n dd hv; simp [putReference, hcl, hv]
  · intro b
    cases hl : lookupKey s.blobs (sha256Hex b) with
    | none =>
        exact ⟨((sha256Hex b, lenF 0 b),
                { s with ro := false, blobs := (sha256Hex b, b) :: s.blobs }),
               by simp [putBlob, hcl, hl]⟩
    | some bs =>
        exact ⟨((sha256Hex b, lenF 0 b), { s with ro := false }),
               by simp [putBlob, hcl, hl]⟩
  · intro n dd hv
    exact ⟨{ s with ro := false, refs := (n, dd) :: eraseKey s.refs n },
           by simp [putReference, hcl, hv]⟩

/-- Witness: the read-only behaviour evaluated on a store holding one
blob and one reference. -/
theorem readonly_reads_ok_writes_fail_witness :
    (let s0 : EngineState :=
      { blobs := [("sha256:aa", strBytes "payload")],
        refs := [("r", Descriptor.mk mtConfig "sha256:aa" 7)],
        temps := [], scratch := none, ro := false, closed := false }
     (openLayout createdLayout = .ok ()) ∧
     (∀ d bs, lookupKey s0.blobs d = some bs →
        getBlob { s0 with ro := true } d = .ok bs) ∧
     (∀ n dd, lookupKey s0.refs n = some dd →
        getReference { s0 with ro := true } n = .ok dd) ∧
     (listBlobs { s0 with ro := true } = .ok (s0.blobs.map (fun p => p.1))) ∧
     (listReferences { s0 with ro := true } = .ok (s0.refs.map (fun p => p.1))) ∧
     (∀ b, putBlob { s0 with ro := true } b = .error .readOnly) ∧
     (∀ j, putBlobJSON { s0 with ro := true } j = .error .readOnly) ∧
     (∀ n dd, validRefName n = true →
        putReference { s0 with ro := true } n dd = .error .readOnly) ∧
     (∀ b, ∃ r, putBlob { s0 with ro := false } b = .ok r) ∧
     (∀ n dd, validRefName n = true →
        ∃ s2, putReference { s0 with ro := false } n dd = .ok s2)) :=
  readonly_reads_ok_writes_fail _ rfl

/-- C8: deletion is idempotent: after a successful `DeleteBlob` or
`DeleteReference` the target reads back as not-found, and deleting the
now absent target again still succeeds. -/
theorem delete_idempotent (s s1 s2 : EngineState) (d n : String)
    (hb : deleteBlob s d = .ok s1) (hr : deleteReference s n = .ok s2) :
    getBlob s1 d = .error .notFound ∧ (∃ s1b, deleteBlob s1 d = .ok s1b) ∧
    getReference s2 n = .error .notFound ∧
    (∃ s2b, deleteReference s2 n = .ok s2b) := by
  cases hcl : s.closed with
  | true => simp [deleteBlob, hcl] at hb
  | false =>
  cases hro : s.ro with
  | true => simp [deleteBlob, hcl, hro] at hb
  | false =>
  simp only [deleteBlob, hcl, hro, Bool.false_eq_true, if_false] at hb
  simp only [deleteReference, hcl, hro, Bool.false_eq_true, if_false] at hr
  cases hb
  cases hr
  refine ⟨?_, ⟨{ s with blobs := eraseKey (eraseKey s.blobs d) d }, ?_⟩, ?_,
          ⟨{ s with refs := eraseKey (eraseKey s.refs n) n }, ?_⟩⟩
  · simp [getBlob, hcl, lookup_eraseKey]
  · simp [deleteBlob, hcl, hro]
  · simp [getReference, hcl, lookup_eraseKey]
  · simp [deleteReference, hcl, hro]

/-- Store with one blob and one reference, used by the idempotence
witness. -/
def delWitnessS0 : EngineState :=
  { blobs := [("sha256:aa", strBytes "payload")],
    refs := [("r", Descriptor.mk mtConfig "sha256:aa" 7)],
    temps := [], scratch := none, ro := false, closed := false }

/-- The witness store after deleting its blob. -/
def delWitnessS1 : EngineState :=
  { delWitnessS0 with blobs := eraseKey delWitnessS0.blobs "sha256:aa" }

/-- The witness store after deleting its reference. -/
def delWitnessS2 : EngineState :=
  { delWitnessS0 with refs := eraseKey delWitnessS0.refs "r" }

/-- Witness: double deletion on a store holding one blob and one
reference. -/
theorem delete_idempotent_witness :
    getBlob delWitnessS1 "sha256:aa" = .error .notFound ∧
    (∃ s1b, deleteBlob delWitnessS1 "sha256:aa" = .ok s1b) ∧
    getReference delWitnessS2 "r" = .error .notFound ∧
    (∃ s2b, deleteReference delWitnessS2 "r" = .ok s2b) :=
  delete_idempotent delWitnessS0 delWitnessS1 delWitnessS2 "sha256:aa" "r"
    (by decide) (by decide)

/-- C9: a reference name that is not a valid single filename component,
because it contains a path separator or is one of the two relative
directory names, makes `PutReference` fail with the invalid-argument
kind, so nothing is stored. -/
theorem putReference_invalid_name (n : String) (s : EngineState)
    (dd : Descriptor)
    (hn : hasChar n.data '/' = true ∨ n = "." ∨ n = "..")
    (hcl : s.closed = false) :
    putReference s n dd = .error .invalidArgument := by
  have hv : validRefName n = false := by
    rcases hn with h | h | h
    · simp [validRefName, h]
    · subst h; decide
    · subst h; decide
  simp [putReference, hcl, hv]

/-- Witness: a name holding a path separator is rejected by a fresh
store. -/
theorem putReference_invalid_name_witness :
    (hasChar "a/b".data '/' = true ∨ "a/b" = "." ∨ "a/b" = "..") ∧
    freshEngine.closed = false ∧
    putReference freshEngine "a/b" (Descriptor.mk mtConfig "sha256:aa" 7) =
      .error .invalidArgument :=
  ⟨Or.inl (by decide), rfl,
   putReference_invalid_name "a/b" freshEngine _ (Or.inl (by decide)) rfl⟩

/-! ## Claims settled by concrete evaluation -/

/-- C3: the end-to-end scenario produces exactly the three published
digests (layer, config, manifest), so they are stable across runs. -/
theorem scenario_digests_stable :
    scenarioDigests =
      .ok (expectedLayerDigest, expectedConfigDigest, expectedManifestDigest) := by
  decide

set_option maxHeartbeats 2000000 in
/-- C2: after `Add` of a new layer with comment `new layer` and
`Commit` on the one-layer scenario image, the returned descriptor
differs from the source, the reloaded manifest has two layers with the
first digest unchanged and the second of the gzip media type, the
config digest changed, the diff IDs grew by one, and the history grew
by one non-empty-layer entry with the supplied comment. -/
theorem mutate_add_commit : c2Check = true := by decide

set_option maxHeartbeats 2000000 in
/-- C5: after `Set` of a new runtime config and `Commit` on the
scenario image, the layers and diff IDs are unchanged, the config
digest differs from the source, the user holds the new value, and
exactly one empty-layer history entry with the supplied comment was
appended. -/
theorem mutate_set_commit : c5Check = true := by decide

/-- C10: storing a value of the test struct with `PutBlobJSON` succeeds
on an open read-write engine, returning a digest and a size, and
`GetBlob` of that digest streams back bytes that JSON-decode to a value
equal to the original — the round trip through the blob store preserves
the value, including the zero value of the struct. The collision
hypothesis states that the store holds no foreign bytes under the blob
digest, exactly as in the plain blob round trip. -/
theorem putBlobJSON_getBlob_json_roundtrip (o : TestObject) (s : EngineState)
    (hcl : s.closed = false) (hro : s.ro = false)
    (hcoll : ∀ bs, lookupKey s.blobs
        (sha256Hex ((encTestObject o).data ++ ['\n'])) = some bs →
      bs = (encTestObject o).data ++ ['\n']) :
    ∃ d n s2, putBlobJSON s (encTestObject o) = .ok ((d, n), s2) ∧
      ∃ bs, getBlob s2 d = .ok bs ∧ decodeTestObject (String.mk bs) = some o := by
  cases hl : lookupKey s.blobs (sha256Hex ((encTestObject o).data ++ ['\n'])) with
  | none =>
      refine ⟨sha256Hex ((encTestObject o).data ++ ['\n']),
        lenF 0 ((encTestObject o).data ++ ['\n']),
        { s with blobs := (sha256Hex ((encTestObject o).data ++ ['\n']),
                           (encTestObject o).data ++ ['\n']) :: s.blobs },
        ?_, ?_⟩
      · simp [putBlobJSON, putBlob, hcl, hro, hl]
      · refine ⟨(encTestObject o).data ++ ['\n'], ?_, decodeTestObject_enc o⟩
        simp [getBlob, hcl, lookupKey]
  | some bs =>
      have hbs := hcoll bs hl
      subst hbs
      refine ⟨sha256Hex ((encTestObject o).data ++ ['\n']),
        lenF 0 ((encTestObject o).data ++ ['\n']), s, ?_, ?_⟩
      · simp [putBlobJSON, putBlob, hcl, hro, hl]
      · exact ⟨(encTestObject o).data ++ ['\n'],
          by simp [getBlob, hcl, hl], decodeTestObject_enc o⟩

/-- Witness: the JSON round trip evaluated at the zero value of the
struct in a fresh store. -/
theorem putBlobJSON_getBlob_json_roundtrip_witness :
    freshEngine.closed = false ∧ freshEngine.ro = false ∧
    ∃ d n s2, putBlobJSON freshEngine (encTestObject ⟨"", 0⟩) = .ok ((d, n), s2) ∧
      ∃ bs, getBlob s2 d = .ok bs ∧
        decodeTestObject (String.mk bs) = some (⟨"", 0⟩ : TestObject) :=
  ⟨rfl, rfl, putBlobJSON_getBlob_json_roundtrip ⟨"", 0⟩ freshEngine rfl rfl
    (fun bs h => by simp [freshEngine, lookupKey] at h)⟩

end Umoci
